import Mathlib

/-!
Verification of the slivka job-execution core.

The retry-pacing primitive `BackoffCounter` and the lifecycle enumeration
`JobStatus` are embedded from `slivka/utils.py`.  The command-rendering
model (`CommandOption`, `Executor`, `Job`, `FileResult`) is exercised by
`tests/executors/test_executor.py`, but its source module is not part of
the available tree, so those definitions are modelled from the spec.
-/

/-- The internal iterator of a `BackoffCounter`: either the shared infinite
generator of zeros (`itertools.repeat(0)`, the class attribute `_zero_gen`)
or a partially consumed `reversed(range(n))` countdown, represented by the
list of values it has yet to yield. -/
inductive Gen where
  | zero_gen : Gen
  | countdown : List Nat → Gen
deriving DecidableEq

/-- State of `BackoffCounter` (`slivka/utils.py`, lines 27-62): the iterator
`_counter`, the try count `_tries`, the cap `max_tries` and the last drawn
value `current`. -/
@[ext]
structure BackoffCounter where
  counter : Gen
  tries : Nat
  max_tries : Nat
  current : Nat
deriving DecidableEq

/-- `BackoffCounter.__init__`: a fresh counter starts on the zero generator
with zero tries and `current = 0` (the Python default for `max_tries` is 64,
passed explicitly here). -/
def BackoffCounter.init (max_tries : Nat) : BackoffCounter :=
  ⟨Gen.zero_gen, 0, max_tries, 0⟩

/-- `BackoffCounter.__next__`: draw from the internal iterator, store the
value in `current` and return it; on `StopIteration` (an exhausted
countdown) call `reset()` — which also clears the try count — and draw from
the fresh zero generator, which yields 0. -/
def BackoffCounter.next (c : BackoffCounter) : Nat × BackoffCounter :=
  match c.counter with
  | Gen.zero_gen => (0, ⟨Gen.zero_gen, c.tries, c.max_tries, 0⟩)
  | Gen.countdown (x :: xs) => (x, ⟨Gen.countdown xs, c.tries, c.max_tries, x⟩)
  | Gen.countdown [] => (0, ⟨Gen.zero_gen, 0, c.max_tries, 0⟩)

/-- `BackoffCounter.give_up`: the property `self._tries >= self.max_tries`. -/
def BackoffCounter.give_up (c : BackoffCounter) : Bool :=
  decide (c.max_tries ≤ c.tries)

/-- `BackoffCounter.failure`: saturating increment of the try count
(`min(max_tries, tries + 1)`), set `current = 1 << tries`, and restart the
countdown iterator `reversed(range(current))`, i.e. `current-1, …, 0`. -/
def BackoffCounter.failure (c : BackoffCounter) : BackoffCounter :=
  ⟨Gen.countdown ((List.range (1 <<< min c.max_tries (c.tries + 1))).reverse),
   min c.max_tries (c.tries + 1), c.max_tries,
   1 <<< min c.max_tries (c.tries + 1)⟩

/-- `BackoffCounter.reset`: back to the zero generator, zero tries, zero
`current`. -/
def BackoffCounter.reset (c : BackoffCounter) : BackoffCounter :=
  ⟨Gen.zero_gen, 0, c.max_tries, 0⟩

/-- The state after one `next()` call. -/
def BackoffCounter.nextState (c : BackoffCounter) : BackoffCounter :=
  c.next.2

/-- The list of values returned by `k` successive `next()` calls. -/
def nextOutputs : BackoffCounter → Nat → List Nat
  | _, 0 => []
  | c, k + 1 => c.next.1 :: nextOutputs c.next.2 k

/-- `JobStatus` (`slivka/utils.py`, lines 117-128): the 11 lifecycle
states. -/
inductive JobStatus where
  | PENDING
  | REJECTED
  | ACCEPTED
  | QUEUED
  | RUNNING
  | COMPLETED
  | INTERRUPTED
  | DELETED
  | FAILED
  | ERROR
  | UNKNOWN
deriving DecidableEq

/-- `JobStatus.is_finished`: `self not in (PENDING, ACCEPTED, QUEUED,
RUNNING)`. -/
def JobStatus.is_finished (s : JobStatus) : Bool :=
  !(s == JobStatus.PENDING || s == JobStatus.ACCEPTED ||
    s == JobStatus.QUEUED || s == JobStatus.RUNNING)

/-- Whitespace tokenizer: split a character stream at whitespace, dropping
empty tokens; `acc` holds the characters of the token in progress, in
reverse. -/
def splitWsAux : List Char → List Char → List String
  | [], acc => if acc.isEmpty then [] else [String.mk acc.reverse]
  | ch :: rest, acc =>
    if ch.isWhitespace then
      (if acc.isEmpty then [] else [String.mk acc.reverse]) ++ splitWsAux rest []
    else
      splitWsAux rest (ch :: acc)

/-- Whitespace-tokenize a string: maximal runs of non-whitespace characters,
in order. -/
def whitespaceTokenize (s : String) : List String :=
  splitWsAux s.data []

/-- Replace every occurrence of `pat` in the character stream by `v`,
scanning left to right; the fuel argument (instantiated with the stream
length) keeps the recursion structural. -/
def replaceAux (pat v : List Char) : Nat → List Char → List Char
  | 0, cs => cs
  | _ + 1, [] => []
  | fuel + 1, c :: rest =>
    if pat.isPrefixOf (c :: rest) then
      v ++ replaceAux pat v fuel ((c :: rest).drop pat.length)
    else
      c :: replaceAux pat v fuel rest

/-- Substitute the placeholder `${value}` in one token by the string form
of the value, as a single unit. -/
def replaceValue (tok v : String) : String :=
  String.mk (replaceAux "${value}".data v.data tok.data.length tok.data)

/-- Modelled from the spec: `CommandOption` (its source module
`pybioas/scheduler/command.py` is not in the tree; only
`tests/executors/test_executor.py` exercises it) — a `name` keying into the
values mapping, a `template` with the `${value}` placeholder, and a
`default` flag telling whether to emit the literal template when the value
is absent. -/
structure CommandOption where
  name : String
  template : String
  default : Bool

/-- Modelled from the spec: `CommandOption.get_cmd_option` rendering.
Value absent and `default = false` → no tokens; absent and
`default = true` → whitespace-tokenize the literal template; present →
substitute the placeholder with the value as a single unit (no whitespace
re-splitting of the substituted value), tokenizing only the option's own
literal surrounding text, and emit no token for an empty rendered
string. -/
def CommandOption.get_cmd_option (opt : CommandOption) (value : Option String) :
    List String :=
  match value with
  | none => if opt.default then whitespaceTokenize opt.template else []
  | some v =>
    ((whitespaceTokenize opt.template).map (fun tok => replaceValue tok v)).filter
      (fun tok => tok ≠ "")

/-- Modelled from the spec: the part of `Executor` that `get_options`
needs — its ordered list of `CommandOption`s. -/
structure Executor where
  options : List CommandOption

/-- Look a name up in the values mapping, modelled order-insensitively as
an association list (first match wins; names are unique within a call). -/
def lookupValue (values : List (String × String)) (n : String) : Option String :=
  (values.find? (fun p => p.1 == n)).map (fun p => p.2)

/-- Modelled from the spec: `Executor.get_options` iterates the
`CommandOption`s in declaration order, looks each up by name in `values`
(missing means absent), and concatenates the rendered tokens in that
order. -/
def Executor.get_options (exe : Executor) (values : List (String × String)) :
    List String :=
  exe.options.flatMap (fun opt => opt.get_cmd_option (lookupValue values opt.name))

/-- Modelled from the spec: `FileResult` declares one or more output-name
patterns relative to the working directory. -/
structure FileResult where
  patterns : List String

/-- Modelled from the spec: `FileResult.get_paths` resolves the declared
patterns against `cwd`, returning the ordered list of absolute paths. -/
def FileResult.get_paths (f : FileResult) (cwd : String) : List String :=
  f.patterns.map (fun p => cwd ++ "/" ++ p)

/-- Modelled from the spec: `Job` holds the backend handle, the working
directory and the `FileResult` descriptors. -/
structure Job where
  job_id : String
  cwd : String
  results : List FileResult

/-- Modelled from the spec: `Job.file_results` flattens
`FileResult.get_paths(cwd)` across all descriptors, preserving descriptor
order then intra-descriptor order. -/
def Job.file_results (j : Job) : List String :=
  j.results.flatMap (fun f => f.get_paths j.cwd)

/-- After `k` consecutive `failure()` calls on a fresh counter, the try
count is `min max_tries k` and `max_tries` is unchanged. -/
theorem failure_iterate_tries (m k : Nat) :
    ((BackoffCounter.failure)^[k] (BackoffCounter.init m)).tries = min m k ∧
    ((BackoffCounter.failure)^[k] (BackoffCounter.init m)).max_tries = m := by
  induction k with
  | zero => simp [BackoffCounter.init]
  | succ k ih =>
    rw [Function.iterate_succ_apply']
    refine ⟨?_, ?_⟩
    · show min _ _ = _
      rw [ih.1, ih.2]
      omega
    · show _ = m
      exact ih.2

/-- The full state after `N` consecutive `failure()` calls on a fresh
counter, for `1 ≤ N ≤ max_tries`. -/
theorem failure_iterate_eq (m N : Nat) (hN : 0 < N) (hNm : N ≤ m) :
    (BackoffCounter.failure)^[N] (BackoffCounter.init m) =
      ⟨Gen.countdown ((List.range (2 ^ N)).reverse), N, m, 2 ^ N⟩ := by
  obtain ⟨j, rfl⟩ : ∃ j, N = j + 1 := ⟨N - 1, by omega⟩
  rw [Function.iterate_succ_apply']
  have h := failure_iterate_tries m j
  have hmin : min m (min m j + 1) = j + 1 := by omega
  simp only [BackoffCounter.failure, h.1, h.2, hmin, Nat.one_shiftLeft]

/-- On the zero generator, every `next()` call returns 0 and the counter
stays on the zero generator. -/
theorem nextOutputs_zero_gen (k t m cur : Nat) :
    nextOutputs ⟨Gen.zero_gen, t, m, cur⟩ k = List.replicate k 0 := by
  induction k generalizing cur with
  | zero => rfl
  | succ k ih => simp [nextOutputs, BackoffCounter.next, ih, List.replicate_succ]

/-- On a countdown holding the list `l` of values yet to yield, `k`
successive `next()` calls return the first `k` entries of `l` padded with
zeros once `l` is exhausted. -/
theorem nextOutputs_countdown (k : Nat) :
    ∀ (l : List Nat) (t m cur : Nat),
      nextOutputs ⟨Gen.countdown l, t, m, cur⟩ k
        = l.take k ++ List.replicate (k - l.length) 0 := by
  induction k with
  | zero => intro l t m cur; simp [nextOutputs]
  | succ k ih =>
    intro l t m cur
    cases l with
    | nil =>
      simp [nextOutputs, BackoffCounter.next, nextOutputs_zero_gen, List.replicate_succ]
    | cons x xs =>
      simp [nextOutputs, BackoffCounter.next, ih xs t m x, Nat.succ_sub_succ]

/-- While the countdown is long enough, `next()` calls only consume the
countdown and leave the try count and `max_tries` untouched. -/
theorem nextState_iterate_countdown (k : Nat) :
    ∀ (l : List Nat) (t m cur : Nat), k ≤ l.length →
      ∃ cur', (BackoffCounter.nextState)^[k] ⟨Gen.countdown l, t, m, cur⟩
        = ⟨Gen.countdown (l.drop k), t, m, cur'⟩ := by
  induction k with
  | zero => intro l t m cur _; exact ⟨cur, by simp⟩
  | succ k ih =>
    intro l t m cur hk
    cases l with
    | nil => simp at hk
    | cons x xs =>
      rw [Function.iterate_succ_apply]
      have hstep : BackoffCounter.nextState ⟨Gen.countdown (x :: xs), t, m, cur⟩
          = ⟨Gen.countdown xs, t, m, x⟩ := rfl
      rw [hstep]
      simpa using ih xs t m x (by simpa using hk)

/-- C1: after `N` consecutive `failure()` calls on a fresh counter
(`1 ≤ N ≤ max_tries`), the field `current` equals `2 ^ N`, and the
subsequent `next()` calls return `2^N - 1, 2^N - 2, …, 0` (the reversed
range) followed by `0` on every further call until the next `failure()`. -/
theorem backoff_failure_sequence (m N : Nat) (hN : 0 < N) (hNm : N ≤ m) :
    ((BackoffCounter.failure)^[N] (BackoffCounter.init m)).current = 2 ^ N ∧
    ∀ k, nextOutputs ((BackoffCounter.failure)^[N] (BackoffCounter.init m)) k
        = ((List.range (2 ^ N)).reverse).take k ++ List.replicate (k - 2 ^ N) 0 := by
  rw [failure_iterate_eq m N hN hNm]
  refine ⟨rfl, ?_⟩
  intro k
  rw [nextOutputs_countdown]
  simp

/-- Witness for C1 at `max_tries = 64`, `N = 2`: `current = 4` and six
`next()` calls return `3, 2, 1, 0, 0, 0`. -/
theorem backoff_failure_sequence_witness :
    (0 < 2 ∧ 2 ≤ 64) ∧
    ((BackoffCounter.failure)^[2] (BackoffCounter.init 64)).current = 2 ^ 2 ∧
    nextOutputs ((BackoffCounter.failure)^[2] (BackoffCounter.init 64)) 6
      = [3, 2, 1, 0, 0, 0] := by
  refine ⟨⟨by decide, by decide⟩,
    (backoff_failure_sequence 64 2 (by decide) (by decide)).1, ?_⟩
  rw [(backoff_failure_sequence 64 2 (by decide) (by decide)).2 6]
  decide

/-- C2 counterexample: with `max_tries = 1`, after one `failure()` the try
count is saturated and `give_up` is true, yet after three `next()` calls —
with no `reset()` call in between — `give_up` is false, because the
`next()` that finds the countdown exhausted performs a full `reset()`,
clearing the try count. -/
theorem backoff_give_up_counterexample :
    (BackoffCounter.failure (BackoffCounter.init 1)).give_up = true ∧
    ((BackoffCounter.failure
        (BackoffCounter.init 1)).nextState.nextState.nextState).give_up = false := by
  decide

/-- C2 (amended): once the try count has saturated at `max_tries` (after
`max_tries ≥ 1` consecutive `failure()` calls), `give_up` stays true and
the try count is unchanged for up to `2 ^ max_tries` subsequent `next()`
calls (while the countdown is not exhausted); but the `next()` call that
finds the countdown exhausted performs a full reset clearing the try
count, so after `2 ^ max_tries + 1` calls `give_up` is false. -/
theorem backoff_give_up_amended (m k : Nat) (hm : 0 < m) (hk : k ≤ 2 ^ m) :
    ((BackoffCounter.nextState)^[k]
        ((BackoffCounter.failure)^[m] (BackoffCounter.init m))).give_up = true ∧
    ((BackoffCounter.nextState)^[k]
        ((BackoffCounter.failure)^[m] (BackoffCounter.init m))).tries = m ∧
    ((BackoffCounter.nextState)^[2 ^ m + 1]
        ((BackoffCounter.failure)^[m] (BackoffCounter.init m))).give_up = false := by
  rw [failure_iterate_eq m m hm le_rfl]
  have hlen : ((List.range (2 ^ m)).reverse).length = 2 ^ m := by simp
  obtain ⟨cur', hk'⟩ := nextState_iterate_countdown k ((List.range (2 ^ m)).reverse)
    m m (2 ^ m) (by rw [hlen]; exact hk)
  obtain ⟨cur2, h2⟩ := nextState_iterate_countdown (2 ^ m) ((List.range (2 ^ m)).reverse)
    m m (2 ^ m) (le_of_eq hlen.symm)
  refine ⟨?_, ?_, ?_⟩
  · rw [hk']
    simp [BackoffCounter.give_up]
  · rw [hk']
  · rw [Function.iterate_succ_apply', h2]
    have hdrop : ((List.range (2 ^ m)).reverse).drop (2 ^ m) = [] := by
      apply List.drop_eq_nil_of_le
      simp
    rw [hdrop]
    show BackoffCounter.give_up ⟨Gen.zero_gen, 0, m, 0⟩ = false
    simp [BackoffCounter.give_up]
    omega

/-- Witness for the amended C2 at `max_tries = 1`, `k = 2`. -/
theorem backoff_give_up_amended_witness :
    (0 < 1 ∧ 2 ≤ 2 ^ 1) ∧
    (((BackoffCounter.nextState)^[2]
        ((BackoffCounter.failure)^[1] (BackoffCounter.init 1))).give_up = true ∧
     ((BackoffCounter.nextState)^[2]
        ((BackoffCounter.failure)^[1] (BackoffCounter.init 1))).tries = 1 ∧
     ((BackoffCounter.nextState)^[2 ^ 1 + 1]
        ((BackoffCounter.failure)^[1] (BackoffCounter.init 1))).give_up = false) :=
  ⟨⟨by decide, by decide⟩, backoff_give_up_amended 1 2 (by decide) (by decide)⟩

/-- C6: with `max_tries = 64`, `give_up` is false after 63 consecutive
`failure()` calls and true after 64 or any larger number of consecutive
`failure()` calls (the try count saturates). -/
theorem backoff_give_up_64 :
    ((BackoffCounter.failure)^[63] (BackoffCounter.init 64)).give_up = false ∧
    ∀ j, 64 ≤ j →
      ((BackoffCounter.failure)^[j] (BackoffCounter.init 64)).give_up = true := by
  constructor
  · simp only [BackoffCounter.give_up, (failure_iterate_tries 64 63).1,
      (failure_iterate_tries 64 63).2]
    decide
  · intro j hj
    simp only [BackoffCounter.give_up, (failure_iterate_tries 64 j).1,
      (failure_iterate_tries 64 j).2]
    simp
    omega

/-- Witness for C6: after 65 `failure()` calls `give_up` is still true. -/
theorem backoff_give_up_64_witness :
    64 ≤ 65 ∧
    ((BackoffCounter.failure)^[65] (BackoffCounter.init 64)).give_up = true :=
  ⟨by decide, backoff_give_up_64.2 65 (by decide)⟩

/-- C7: `reset()` on any counter state yields exactly the state of a
freshly constructed counter with the same `max_tries` (hence observational
equivalence), and every subsequent `next()` call returns 0 until a
`failure()` occurs. -/
theorem backoff_reset_fresh (c : BackoffCounter) :
    c.reset = BackoffCounter.init c.max_tries ∧
    ∀ k, nextOutputs c.reset k = List.replicate k 0 := by
  refine ⟨rfl, ?_⟩
  intro k
  exact nextOutputs_zero_gen k 0 c.max_tries 0

/-- C8: with `max_tries = 0`, `give_up` is true after the very first
`failure()` call. -/
theorem backoff_max_tries_zero_failure :
    (BackoffCounter.failure (BackoffCounter.init 0)).give_up = true := by decide

/-- C10: with `max_tries = 0`, `give_up` is already true immediately after
construction, before any `failure()` call: the saturation test is
`tries ≥ max_tries` and the initial try count is 0. -/
theorem backoff_max_tries_zero_init :
    (BackoffCounter.init 0).give_up = true ∧ (BackoffCounter.init 0).tries = 0 := by
  decide

/-- C3: `is_finished` is true exactly for REJECTED, COMPLETED, INTERRUPTED,
DELETED, FAILED, ERROR, UNKNOWN, and false exactly for PENDING, ACCEPTED,
QUEUED, RUNNING. -/
theorem job_status_finished_classification (s : JobStatus) :
    (s.is_finished = true ↔
      (s = JobStatus.REJECTED ∨ s = JobStatus.COMPLETED ∨ s = JobStatus.INTERRUPTED ∨
       s = JobStatus.DELETED ∨ s = JobStatus.FAILED ∨ s = JobStatus.ERROR ∨
       s = JobStatus.UNKNOWN)) ∧
    (s.is_finished = false ↔
      (s = JobStatus.PENDING ∨ s = JobStatus.ACCEPTED ∨ s = JobStatus.QUEUED ∨
       s = JobStatus.RUNNING)) := by
  cases s <;> exact (by decide)

/-- C4: a present value is substituted as a single unit and never
whitespace-split: with template `${value}`, any nonempty value `v` renders
to the one-element token list `[v]`; in particular value `"foo bar"` gives
`["foo bar"]`, and template `-a=${value}` with value `"foo bar"` gives
`["-a=foo bar"]`. -/
theorem option_value_single_token :
    (∀ v : String, v ≠ "" →
      CommandOption.get_cmd_option ⟨"alpha", "${value}", false⟩ (some v) = [v]) ∧
    CommandOption.get_cmd_option ⟨"alpha", "${value}", false⟩ (some "foo bar")
      = ["foo bar"] ∧
    CommandOption.get_cmd_option ⟨"alpha", "-a=${value}", false⟩ (some "foo bar")
      = ["-a=foo bar"] := by
  refine ⟨?_, by decide, by decide⟩
  intro v hv
  have h2 : replaceValue "${value}" v = v := by
    show String.mk (v.data ++ []) = v
    rw [List.append_nil]
  show ((whitespaceTokenize "${value}").map (fun tok => replaceValue tok v)).filter
      (fun tok => tok ≠ "") = [v]
  have h1 : whitespaceTokenize "${value}" = ["${value}"] := rfl
  rw [h1]
  simp [h2, hv]

/-- Witness for C4 at the value `"goo x"`. -/
theorem option_value_single_token_witness :
    ("goo x" : String) ≠ "" ∧
    CommandOption.get_cmd_option ⟨"alpha", "${value}", false⟩ (some "goo x")
      = ["goo x"] :=
  ⟨by decide, option_value_single_token.1 "goo x" (by decide)⟩

/-- C5: `get_options` renders the options in declaration order, looking
each up by name in the values mapping, and the result is independent of the
mapping's iteration order: the four-option executor of the spec yields
`["foo", "boo", "goo", "doo doom"]` for both orderings of the values. -/
theorem executor_get_options_order :
    Executor.get_options ⟨[⟨"alpha", "foo", true⟩, ⟨"beta", "boo", true⟩,
        ⟨"gamma", "${value}", false⟩, ⟨"delta", "${value}", false⟩]⟩
      [("gamma", "goo"), ("delta", "doo doom")]
      = ["foo", "boo", "goo", "doo doom"] ∧
    Executor.get_options ⟨[⟨"alpha", "foo", true⟩, ⟨"beta", "boo", true⟩,
        ⟨"gamma", "${value}", false⟩, ⟨"delta", "${value}", false⟩]⟩
      [("delta", "doo doom"), ("gamma", "goo")]
      = ["foo", "boo", "goo", "doo doom"] := by
  exact ⟨by decide, by decide⟩

/-- C9: `file_results` is the order-preserving concatenation of
`get_paths cwd` across the descriptors: it satisfies the cons and nil
concatenation laws, and on the two-descriptor instance of the test it
yields `["/foo", "/bar", "/qux"]`. -/
theorem job_file_results_concat :
    (∀ (i c : String) (f : FileResult) (fs : List FileResult),
      (Job.mk i c (f :: fs)).file_results
        = f.get_paths c ++ (Job.mk i c fs).file_results) ∧
    (∀ (i c : String), (Job.mk i c []).file_results = []) ∧
    (Job.mk "jid" "" [⟨["foo", "bar"]⟩, ⟨["qux"]⟩]).file_results
      = ["/foo", "/bar", "/qux"] := by
  refine ⟨?_, ?_, by decide⟩
  · intro i c f fs
    simp [Job.file_results]
  · intro i c
    rfl
